import Mathlib

/-!
# Verification of the async scraper core (`src/core/async_scraper.py`, `src/adidas_id.py`)

Shallow embedding of the worker-pool scraping engine: the retry decorator
`_retry`, the page loader `_load_page`, the worker/session machinery of
`AsyncPlaywrightScraper._create_session` / `_worker`, the two-stage pipeline
`AsyncEcommPlaywrightScraper.fetch_products`, the request filter
`_handle_requests`, and the pagination loop of `AdidasScraper._listing_parser`.

Configuration values (`MAX_RETRIES`, `RETRY_DELAY_FACTOR`, `WORKER_LIMIT`,
`EXCLUDED_RES`) come from an external `config` module and stay abstract
parameters here.  Extraction functions and the rendered pages are external
collaborators; they are modelled as oracles.
-/

namespace Scraper

/-- Extracted data: Python's `dict[str, Any]` modelled as an association list.
The empty list models the empty dict (which is falsy in Python). -/
abbrev Data := List (String × String)

/-- Python truthiness of an extraction result: `None` and the empty dict are
falsy, a non-empty dict is truthy. -/
def pyTruthy : Option Data → Bool
  | none => false
  | some d => !d.isEmpty

/-- One element of `session_result` (`ScrapeResult` in `src/core/types.py`):
`{"url": ..., "is_successful": ..., "data": ...}`. -/
structure Outcome where
  url : String
  is_successful : Bool
  data : Option Data
deriving DecidableEq, Repr

/-- The record step of `AsyncPlaywrightScraper._worker` (lines 132-139):
`if result:` append a successful Outcome, `else` append a failed one; in both
branches `data` is set to the raw result. -/
def recordOutcome (url : String) (result : Option Data) : Outcome :=
  if pyTruthy result then ⟨url, true, result⟩ else ⟨url, false, result⟩

/-! ## RetryPolicy: the `_retry` decorator (async_scraper.py lines 11-28)

An attempt of the wrapped operation is an oracle `op : Nat → Option α`
(1-indexed attempt number): `some v` models `await func(...)` returning `v`,
`none` models `func` raising an exception.  The wrapper loops
`while attempt < max_retries`, incrementing `attempt`, calling `func`, and on
exception sleeping `attempt * RETRY_DELAY_FACTOR` before the next iteration;
falling out of the loop returns Python's implicit `None`. -/

/-- Trace of one run of the `_retry` wrapper. -/
structure RetryRun (α : Type) where
  result : Option α
  attemptsMade : Nat
  /-- durations of the `asyncio.sleep` calls, in order. -/
  delays : List Nat
deriving Repr

/-- The `while attempt < max_retries` loop of `_retry`, with `fuel` the number
of remaining iterations (`max_retries - attempt`) and `attempt` the current
attempt counter. -/
def retryGo (factor : Nat) (op : Nat → Option α) :
    Nat → Nat → List Nat → RetryRun α
  | 0, attempt, ds => ⟨none, attempt, ds⟩
  | fuel + 1, attempt, ds =>
    match op (attempt + 1) with
    | some v => ⟨some v, attempt + 1, ds⟩
    | none =>
      retryGo factor op fuel (attempt + 1) (ds ++ [(attempt + 1) * factor])

/-- A full run of the wrapper produced by `_retry(max_retries)` at delay
factor `RETRY_DELAY_FACTOR = factor`. -/
def retryRun (factor maxRetries : Nat) (op : Nat → Option α) : RetryRun α :=
  retryGo factor op maxRetries 0 []

/-! ## PageLoader: `_load_page` (async_scraper.py lines 148-170)

Each attempt navigates (`page.goto`, may raise), then runs
`asyncio.wait_for(parser(page), 3)` — raising on parser exception or when the
parser exceeds 3 time units — and returns the parser's result unconditionally.
The whole body is wrapped by `@_retry()`. -/

/-- What one attempt of the `_load_page` body encounters. -/
inductive AttemptResult (α : Type) where
  | navError : AttemptResult α
  | extractorError : AttemptResult α
  | completes (duration : Nat) (value : α) : AttemptResult α
deriving DecidableEq, Repr

/-- The fixed timeout handed to `asyncio.wait_for` in `_load_page`. -/
def loadTimeout : Nat := 3

/-- Semantics of one `_load_page` body execution: a navigation error or a
parser exception raises (`none` = exception propagating to `_retry`); a parser
finishing within the timeout returns its value, otherwise `wait_for` raises
`TimeoutError`. -/
def loadAttempt (timeoutBound : Nat) : AttemptResult α → Option α
  | .navError => none
  | .extractorError => none
  | .completes d v => if d ≤ timeoutBound then some v else none

/-- Definition of `_load_page` as decorated: the retry wrapper around the body semantics. -/
def loadPageRun (factor maxRetries : Nat) (att : Nat → AttemptResult α) :
    RetryRun α :=
  retryRun factor maxRetries (fun k => loadAttempt loadTimeout (att k))

/-! ## SessionManager: `_create_session` and `_worker` (lines 76-146)

`_create_session` builds `queue = asyncio.Queue(WORKER_LIMIT)`, spawns
`new_tabs_count = len(urls) if len(urls) < WORKER_LIMIT else WORKER_LIMIT`
worker tasks, enqueues one job `(index, len(urls), url)` per url, waits for
`queue.join()`, cancels the workers and returns `session_result`.

Each worker loops: dequeue a job, run `_load_page`, append an `Outcome` to the
shared `session_result`, call `queue.task_done()`.  The cooperative
interleaving of the producer and the workers is modelled as a small-step
relation on a session state; a worker holds at most one in-flight job, so the
bag of in-flight jobs never exceeds the pool size. -/

/-- Value `new_tabs_count` (line 92): the number of worker tasks spawned. -/
def new_tabs_count (numUrls workerLimit : Nat) : Nat :=
  if numUrls < workerLimit then numUrls else workerLimit

/-- The worker task ids, `range(1, new_tabs_count + 1)` (line 98). -/
def sessionTabs (numUrls workerLimit : Nat) : List Nat :=
  (List.range (new_tabs_count numUrls workerLimit)).map (· + 1)

/-- Capacity of the job queue: `asyncio.Queue(WORKER_LIMIT)` (line 80). -/
def queueCapacity (workerLimit : Nat) : Nat := workerLimit

/-- A job `(index, len(urls), url)` as enqueued at line 103. -/
structure Job where
  idx : Nat
  total : Nat
  url : String
deriving DecidableEq, Repr

/-- The jobs produced by `enumerate(urls, 1)` (line 102). -/
def sessionJobs (urls : List String) : List Job :=
  urls.enum.map (fun p => ⟨p.1 + 1, urls.length, p.2⟩)

/-- State of one session: jobs the producer has not yet enqueued, the bounded
queue contents, the bag of jobs currently held by workers, and the shared
`session_result` list. -/
structure SessionState where
  pending : List Job
  queue : List Job
  inflight : List Job
  results : List Outcome
deriving DecidableEq, Repr

/-- Initial state of `_create_session urls`: nothing enqueued, no worker busy,
empty `session_result`. -/
def sessionInit (urls : List String) : SessionState :=
  ⟨sessionJobs urls, [], [], []⟩

/-- One scheduler step of the session.  `oracle url` is what the retry-wrapped
`_load_page` returns for `url` (`none` = retries exhausted).
* `enqueue`: the producer's `await queue.put(...)` completes; it suspends
  while the bounded queue is full (`cap = WORKER_LIMIT`).
* `dequeue`: an idle worker's `await queue.get()` returns; at most `numW`
  workers exist, each holding at most one job.
* `finish`: a worker finishes `_load_page` for an in-flight job, appends the
  `Outcome` to `session_result` and calls `queue.task_done()`. -/
inductive SessionStep (oracle : String → Option Data) (cap numW : Nat) :
    SessionState → SessionState → Prop where
  | enqueue (j : Job) (rest q w : List Job) (res : List Outcome) :
      q.length < cap →
      SessionStep oracle cap numW ⟨j :: rest, q, w, res⟩ ⟨rest, q ++ [j], w, res⟩
  | dequeue (p : List Job) (j : Job) (rest w : List Job) (res : List Outcome) :
      w.length < numW →
      SessionStep oracle cap numW ⟨p, j :: rest, w, res⟩ ⟨p, rest, j :: w, res⟩
  | finish (p q w1 w2 : List Job) (j : Job) (res : List Outcome) :
      SessionStep oracle cap numW ⟨p, q, w1 ++ j :: w2, res⟩
        ⟨p, q, w1 ++ w2, res ++ [recordOutcome j.url (oracle j.url)]⟩

/-- Steps of a session over `urls` with config `WORKER_LIMIT = workerLimit`:
queue capacity `WORKER_LIMIT`, pool size `new_tabs_count`. -/
def sessionStep (oracle : String → Option Data) (workerLimit : Nat)
    (urls : List String) : SessionState → SessionState → Prop :=
  SessionStep oracle (queueCapacity workerLimit)
    (new_tabs_count urls.length workerLimit)

/-- Predicate saying `queue.join()` has returned and every worker is idle: every enqueued job
was dequeued and processed to completion. -/
def SessionState.Completed (s : SessionState) : Prop :=
  s.pending = [] ∧ s.queue = [] ∧ s.inflight = []

/-! ## Request filter: `_handle_requests` (lines 66-74) -/

/-- The two continuations a `Route` offers. -/
inductive RouteAction where
  | abort : RouteAction
  | continue_ : RouteAction
deriving DecidableEq, Repr

/-- Handler `_handle_requests`: abort when the request's resource type is in
`EXCLUDED_RES`, otherwise continue. -/
def handleRequests (excludedRes : List String) (resourceType : String) :
    RouteAction :=
  if resourceType ∈ excludedRes then .abort else .continue_

/-! ## Pipeline Stage B: `AsyncEcommPlaywrightScraper.fetch_products`
(lines 195-212)

A round of `_create_session(urls, self._product_parser)` is abstracted by an
oracle `b : Nat → String → Option Data` giving, per round and url, the result
the retry-wrapped `_load_page` hands the worker; the session then records one
`Outcome` per url (C1).  Outcome order within a round is nondeterministic in
the real system; the round is modelled in submission order, which is
permutation-equivalent and irrelevant to the counting claims. -/

/-- The outcomes of one Stage-B round over `urls` (the `attempt` list). -/
def fetchRound (b : Nat → String → Option Data) (round : Nat)
    (urls : List String) : List Outcome :=
  urls.map (fun u => recordOutcome u (b round u))

/-- The successful outcomes of one round, `[item for item in attempt if
item["is_successful"] == True]` (line 203). -/
def roundSucc (b : Nat → String → Option Data) (round : Nat)
    (urls : List String) : List Outcome :=
  (fetchRound b round urls).filter (fun o => o.is_successful)

/-- The urls requeued after one round, `[item["url"] for item in attempt if
item["is_successful"] == False]` (line 204). -/
def roundFailUrls (b : Nat → String → Option Data) (round : Nat)
    (urls : List String) : List String :=
  ((fetchRound b round urls).filter (fun o => !o.is_successful)).map
    (fun o => o.url)

/-- The `while remaining_retries and urls` loop of `fetch_products`:
extend `result` with the successful outcomes, requeue the failed urls, stop
when none remain, and when `remaining_retries` hits `0` with urls still
failing, extend `result` with the whole attempt. -/
def fetchProductsGo (b : Nat → String → Option Data) :
    Nat → Nat → List String → List Outcome → List Outcome
  | _, 0, _, result => result
  | round, rem + 1, urls, result =>
    if urls.isEmpty then result
    else if (roundFailUrls b round urls).isEmpty then
      result ++ roundSucc b round urls
    else if rem = 0 then
      (result ++ roundSucc b round urls) ++ fetchRound b round urls
    else
      fetchProductsGo b (round + 1) rem (roundFailUrls b round urls)
        (result ++ roundSucc b round urls)

/-- Entry point `fetch_products(urls)`: `remaining_retries = 3`, empty accumulator. -/
def fetchProducts (b : Nat → String → Option Data) (urls : List String) :
    List Outcome :=
  fetchProductsGo b 0 3 urls []

/-! ## Stage A listing crawl: `AdidasScraper._listing_parser`
(adidas_id.py lines 17-60)

The rendered pages are external; the page shown after `i` navigations is
`site i`.  A page carries its item links, whether the "Next" control is
visible, and the `href` attribute of that control (`""` models both an empty
attribute and Playwright's `None`, which are equally falsy at line 55). -/

/-- One rendered listing page. -/
structure ListingPage where
  links : List String
  nextVisible : Bool
  nextHref : String
deriving DecidableEq, Repr

/-- Helper `get_next_page_url` (lines 34-45): the href when the Next control is
visible, `""` otherwise. -/
def getNextPageUrl (p : ListingPage) : String :=
  if p.nextVisible then p.nextHref else ""

/-- The `while True` pagination loop (lines 49-58): collect the current page's
links, and navigate while `next_page_url` is truthy.  `fuel` bounds the number
of iterations still allowed (the source loop is unbounded). -/
def listingLoop (site : Nat → ListingPage) : Nat → Nat → List String
  | 0, _ => []
  | fuel + 1, i =>
    if getNextPageUrl (site i) = "" then (site i).links
    else (site i).links ++ listingLoop site fuel (i + 1)

/-- Run of `_listing_parser` starting at the first rendered page. -/
def listingParserRun (site : Nat → ListingPage) (fuel : Nat) : List String :=
  listingLoop site fuel 0

/-! ## Lemmas about the retry loop -/

/-- The function `recordOutcome` keeps the job's url in both branches. -/
lemma recordOutcome_url (u : String) (r : Option Data) :
    (recordOutcome u r).url = u := by
  unfold recordOutcome; split <;> rfl

/-- The recorded success flag is exactly Python truthiness of the result. -/
lemma recordOutcome_is_successful (u : String) (r : Option Data) :
    (recordOutcome u r).is_successful = pyTruthy r := by
  unfold recordOutcome
  split <;> simp_all

/-- The recorded data is the raw result in both branches. -/
lemma recordOutcome_data (u : String) (r : Option Data) :
    (recordOutcome u r).data = r := by
  unfold recordOutcome; split <;> rfl

/-- When every attempt the loop can still make raises, `retryGo` exhausts its
fuel, returns `none`, and sleeps `a * factor` after each failed attempt `a`. -/
lemma retryGo_all_fail {α : Type} (factor : Nat) (op : Nat → Option α) :
    ∀ (fuel attempt : Nat) (ds : List Nat),
      (∀ k, attempt < k → k ≤ attempt + fuel → op k = none) →
      retryGo factor op fuel attempt ds =
        ⟨none, attempt + fuel,
          ds ++ (List.range' (attempt + 1) fuel).map (fun a => a * factor)⟩ := by
  intro fuel
  induction fuel with
  | zero => intro attempt ds _; simp [retryGo]
  | succ f ih =>
    intro attempt ds h
    have h1 : op (attempt + 1) = none := h _ (by omega) (by omega)
    rw [retryGo, h1]
    rw [ih (attempt + 1) _ (fun k hk1 hk2 => h k (by omega) (by omega))]
    have hrange : List.range' (attempt + 1) (f + 1)
        = (attempt + 1) :: List.range' (attempt + 1 + 1) f := rfl
    simp only [RetryRun.mk.injEq, hrange, List.map_cons, true_and]
    refine ⟨by omega, ?_⟩
    rw [List.append_assoc, List.singleton_append]

/-- If the `j` attempts after the current one raise and the next attempt after
those returns `v` while fuel remains, the loop returns `v`. -/
lemma retryGo_first_success {α : Type} (factor : Nat) (op : Nat → Option α) :
    ∀ (j fuel attempt : Nat) (ds : List Nat) (v : α),
      j < fuel →
      (∀ k, attempt < k → k ≤ attempt + j → op k = none) →
      op (attempt + j + 1) = some v →
      (retryGo factor op fuel attempt ds).result = some v := by
  intro j
  induction j with
  | zero =>
    intro fuel attempt ds v hfuel _ hv
    obtain ⟨f, rfl⟩ : ∃ f, fuel = f + 1 := ⟨fuel - 1, by omega⟩
    rw [retryGo, hv]
  | succ j ih =>
    intro fuel attempt ds v hfuel hfail hv
    obtain ⟨f, rfl⟩ : ∃ f, fuel = f + 1 := ⟨fuel - 1, by omega⟩
    have h1 : op (attempt + 1) = none := hfail _ (by omega) (by omega)
    rw [retryGo, h1]
    have hv' : op (attempt + 1 + j + 1) = some v := by
      have he : attempt + 1 + j + 1 = attempt + (j + 1) + 1 := by omega
      rw [he]; exact hv
    exact ih f (attempt + 1) _ v (by omega)
      (fun k hk1 hk2 => hfail k (by omega) (by omega)) hv'

/-- The attempt counter never exceeds the fuel still available. -/
lemma retryGo_attempts_le {α : Type} (factor : Nat) (op : Nat → Option α) :
    ∀ (fuel attempt : Nat) (ds : List Nat),
      (retryGo factor op fuel attempt ds).attemptsMade ≤ attempt + fuel := by
  intro fuel
  induction fuel with
  | zero => intro attempt ds; simp [retryGo]
  | succ f ih =>
    intro attempt ds
    rw [retryGo]
    cases h : op (attempt + 1) with
    | some v => show attempt + 1 ≤ attempt + (f + 1); omega
    | none =>
      have hle := ih (attempt + 1) (ds ++ [(attempt + 1) * factor])
      show (retryGo factor op f (attempt + 1)
        (ds ++ [(attempt + 1) * factor])).attemptsMade ≤ attempt + (f + 1)
      omega

/-- Twice the sum of the linear delay schedule starting at attempt `s`. -/
lemma sum_linear_delays (factor : Nat) :
    ∀ (n s : Nat), 2 * (((List.range' s n).map (fun a => a * factor)).sum)
      = (2 * s + n - 1) * n * factor := by
  intro n
  induction n with
  | zero => intro s; simp
  | succ m ih =>
    intro s
    have hrange : List.range' s (m + 1) = s :: List.range' (s + 1) m := rfl
    rw [hrange, List.map_cons, List.sum_cons]
    have hih := ih (s + 1)
    have e1 : 2 * s + (m + 1) - 1 = 2 * s + m := by omega
    have e2 : 2 * (s + 1) + m - 1 = 2 * s + m + 1 := by omega
    rw [e1]
    rw [e2] at hih
    nlinarith [hih]

/-! ## Theorems for the frozen claims -/

/-- C3: when the wrapped operation fails on every attempt, `_retry` makes at
most `MAX_RETRIES` attempts (indeed exactly `MAX_RETRIES`), falls out of the
loop returning Python's implicit `None` without raising, sleeps a cumulative
`factor * m * (m + 1) / 2` time units before giving up (6 units at
`MAX_RETRIES = 3`, `RETRY_DELAY_FACTOR = 1`), and the worker records the
resulting `Outcome` with `is_successful = false`. -/
theorem retry_exhaustion_returns_none (factor maxRetries : Nat)
    (op : Nat → Option Data) (u : String) (hfail : ∀ k, op k = none) :
    (retryRun factor maxRetries op).result = none ∧
    (retryRun factor maxRetries op).attemptsMade = maxRetries ∧
    2 * (retryRun factor maxRetries op).delays.sum
      = maxRetries * (maxRetries + 1) * factor ∧
    (recordOutcome u (retryRun factor maxRetries op).result).is_successful
      = false := by
  have h := retryGo_all_fail factor op maxRetries 0 []
    (fun k _ _ => hfail k)
  unfold retryRun
  rw [h]
  refine ⟨rfl, by show 0 + maxRetries = maxRetries; omega, ?_, rfl⟩
  show 2 * (([] : List Nat)
      ++ (List.range' (0 + 1) maxRetries).map (fun a => a * factor)).sum
    = maxRetries * (maxRetries + 1) * factor
  rw [List.nil_append]
  have e0 : 0 + 1 = 1 := rfl
  rw [e0, sum_linear_delays factor maxRetries 1]
  have e : 2 * 1 + maxRetries - 1 = maxRetries + 1 := by omega
  rw [e]
  ring

/-- C3 witness: an operation that always raises, `MAX_RETRIES = 3`,
`RETRY_DELAY_FACTOR = 1`: no result, 3 attempts, 6 time units of backoff,
failed outcome. -/
theorem retry_exhaustion_returns_none_witness :
    (retryRun 1 3 (fun _ => (none : Option Data))).result = none ∧
    (retryRun 1 3 (fun _ => (none : Option Data))).attemptsMade = 3 ∧
    (retryRun 1 3 (fun _ => (none : Option Data))).delays.sum = 6 ∧
    (recordOutcome "u"
      (retryRun 1 3 (fun _ => (none : Option Data))).result).is_successful
      = false := by
  have h := retry_exhaustion_returns_none 1 3 (fun _ => (none : Option Data)) "u"
    (fun _ => rfl)
  exact ⟨h.1, h.2.1, by omega, h.2.2.2⟩

/-- C4 counterexample: with `RETRY_DELAY_FACTOR = 1` and `MAX_RETRIES = 3`,
the delay the wrapper waits before executing attempt 2 (its first sleep) is
`1 * RETRY_DELAY_FACTOR`, not `2 * RETRY_DELAY_FACTOR` as the claim's
"before attempt k equals k × RETRY_DELAY_FACTOR" requires. -/
theorem retry_delay_counterexample :
    (retryRun 1 3 (fun _ => (none : Option Data))).delays.get? 0 = some 1 ∧
    (1 : Nat) ≠ 2 * 1 := by
  constructor
  · rfl
  · decide

/-- C4 amended: the wrapper makes at most `MAX_RETRIES` attempts, and the
backoff delay slept after failed attempt `k` — i.e. before executing attempt
`k + 1` — equals `k * RETRY_DELAY_FACTOR`; the schedule is linearly
increasing, and no delay precedes the first attempt. -/
theorem retry_delay_schedule {α : Type} (factor maxRetries : Nat)
    (op : Nat → Option α) :
    (retryRun factor maxRetries op).attemptsMade ≤ maxRetries ∧
    ((∀ k, op k = none) →
      (retryRun factor maxRetries op).delays
        = (List.range' 1 maxRetries).map (fun a => a * factor)) := by
  constructor
  · simpa using retryGo_attempts_le factor op maxRetries 0 []
  · intro hfail
    have h := retryGo_all_fail factor op maxRetries 0 []
      (fun k _ _ => hfail k)
    unfold retryRun
    rw [h]
    simp

/-- C4 amended witness: all-fail operation, `factor = 1`, `MAX_RETRIES = 3`:
at most 3 attempts and sleeps `[1, 2, 3]` (after attempts 1, 2, 3). -/
theorem retry_delay_schedule_witness :
    (retryRun 1 3 (fun _ => (none : Option Data))).attemptsMade ≤ 3 ∧
    (retryRun 1 3 (fun _ => (none : Option Data))).delays = [1, 2, 3] := by
  have h := retry_delay_schedule 1 3 (fun _ => (none : Option Data))
  exact ⟨h.1, by rw [h.2 (fun _ => rfl)]; rfl⟩

/-- C6: for a session over a non-empty address list, the number of spawned
worker tasks equals `min(len(urls), WORKER_LIMIT)`. -/
theorem pool_size_is_min (numUrls workerLimit : Nat) (_h : 0 < numUrls) :
    (sessionTabs numUrls workerLimit).length = min numUrls workerLimit ∧
    new_tabs_count numUrls workerLimit = min numUrls workerLimit := by
  constructor <;> simp [sessionTabs, new_tabs_count] <;> split <;> omega

/-- C6 witness: 3 addresses, `WORKER_LIMIT = 2`: 2 workers spawned. -/
theorem pool_size_is_min_witness :
    (sessionTabs 3 2).length = min 3 2 ∧ new_tabs_count 3 2 = min 3 2 :=
  pool_size_is_min 3 2 (by decide)

/-- C7 counterexample: one address, `WORKER_LIMIT = 2`: the queue is created
with capacity `WORKER_LIMIT = 2`, while the pool size is
`min(len(urls), WORKER_LIMIT) = 1` — the claimed equality fails. -/
theorem queue_capacity_counterexample :
    queueCapacity 2 = 2 ∧ new_tabs_count 1 2 = 1 ∧
    queueCapacity 2 ≠ new_tabs_count 1 2 := by
  decide

/-- C7 amended: the job queue is bounded with capacity `WORKER_LIMIT`
(`asyncio.Queue(WORKER_LIMIT)`), which equals the spawned pool size exactly
when the session has at least `WORKER_LIMIT` addresses. -/
theorem queue_capacity_is_worker_limit (numUrls workerLimit : Nat) :
    queueCapacity workerLimit = workerLimit ∧
    (workerLimit ≤ numUrls →
      queueCapacity workerLimit = new_tabs_count numUrls workerLimit) := by
  refine ⟨rfl, fun hle => ?_⟩
  simp only [queueCapacity, new_tabs_count]
  split <;> omega

/-- C7 amended witness: 5 addresses, `WORKER_LIMIT = 2`: capacity 2 equals
the pool size. -/
theorem queue_capacity_is_worker_limit_witness :
    queueCapacity 2 = 2 ∧ (2 ≤ 5 → queueCapacity 2 = new_tabs_count 5 2) :=
  queue_capacity_is_worker_limit 5 2

/-- If the attempts before `k` fail and attempt `k` completes within the
timeout inside the budget, `_load_page` returns attempt `k`'s value. -/
lemma loadPageRun_first_success {α : Type} (factor maxRetries : Nat)
    (att : Nat → AttemptResult α) (k d : Nat) (v : α)
    (hk1 : 1 ≤ k) (hkm : k ≤ maxRetries)
    (hprev : ∀ i, 1 ≤ i → i < k → loadAttempt loadTimeout (att i) = none)
    (hatt : att k = .completes d v) (hd : d ≤ loadTimeout) :
    (loadPageRun factor maxRetries att).result = some v := by
  have hop : (fun i => loadAttempt loadTimeout (att i)) (0 + (k - 1) + 1)
      = some v := by
    have he : 0 + (k - 1) + 1 = k := by omega
    rw [he]
    simp [hatt, loadAttempt, hd]
  exact retryGo_first_success factor _ (k - 1) maxRetries 0 [] v (by omega)
    (fun i h1 h2 => hprev i (by omega) (by omega)) hop

/-- C5: `_load_page` runs the extractor under the fixed timeout
`loadTimeout = 3`; it returns the extractor's value when some attempt within
the retry budget completes within the timeout (the earlier attempts having
failed), returns `none` when every attempt fails, and the three failure
causes — navigation error, extractor exception, timeout — are
indistinguishable to the caller: they induce the same attempt semantics
(`none`) and runs whose attempts agree pointwise produce identical results. -/
theorem load_page_contract (α : Type) (factor maxRetries : Nat) :
    (∀ att : Nat → AttemptResult α,
      (∀ k, loadAttempt loadTimeout (att k) = none) →
      (loadPageRun factor maxRetries att).result = none) ∧
    (∀ (att : Nat → AttemptResult α) (k d : Nat) (v : α),
      1 ≤ k → k ≤ maxRetries →
      (∀ i, 1 ≤ i → i < k → loadAttempt loadTimeout (att i) = none) →
      att k = .completes d v → d ≤ loadTimeout →
      (loadPageRun factor maxRetries att).result = some v) ∧
    (∀ att att' : Nat → AttemptResult α,
      (∀ k, loadAttempt loadTimeout (att k) = loadAttempt loadTimeout (att' k)) →
      loadPageRun factor maxRetries att = loadPageRun factor maxRetries att') ∧
    loadAttempt loadTimeout (AttemptResult.navError : AttemptResult α) = none ∧
    loadAttempt loadTimeout (AttemptResult.extractorError : AttemptResult α)
      = none ∧
    (∀ (d : Nat) (v : α), loadTimeout < d →
      loadAttempt loadTimeout (AttemptResult.completes d v) = none) := by
  refine ⟨?_, ?_, ?_, rfl, rfl, ?_⟩
  · intro att hfail
    have h := retryGo_all_fail factor (fun k => loadAttempt loadTimeout (att k))
      maxRetries 0 [] (fun k _ _ => hfail k)
    unfold loadPageRun retryRun
    rw [h]
  · intro att k d v hk1 hkm hprev hatt hd
    exact loadPageRun_first_success factor maxRetries att k d v hk1 hkm hprev
      hatt hd
  · intro att att' hagree
    unfold loadPageRun retryRun
    have : (fun k => loadAttempt loadTimeout (att k))
        = (fun k => loadAttempt loadTimeout (att' k)) := funext hagree
    rw [this]
  · intro d v hd
    simp [loadAttempt]
    omega

/-- C5 witness: navigation error on attempt 1, then a parse completing in 3
time units on attempt 2 with budget `MAX_RETRIES = 3`: the caller gets the
extractor's value. -/
theorem load_page_contract_witness :
    (loadPageRun 1 3 (fun k => if k = 2
      then AttemptResult.completes 3 [("p", "q")]
      else (AttemptResult.navError : AttemptResult Data))).result
      = some [("p", "q")] := by
  refine (load_page_contract Data 1 3).2.1 _ 2 3 [("p", "q")]
    (by decide) (by decide) ?_ (by decide) (by decide)
  intro i h1 h2
  have : i = 1 := by omega
  subst this
  rfl

/-- C10: an extractor that completes within the timeout without raising but
returns the empty mapping is treated as a failure: the retry wrapper hands the
worker `some []`, which is falsy, so the worker records
`is_successful = false` with `data` set to the empty value; in general the
recorded success flag is exactly the Python truthiness of the result. -/
theorem empty_extraction_recorded_failed (factor maxRetries : Nat)
    (att : Nat → AttemptResult Data) (u : String) (d : Nat)
    (hm : 1 ≤ maxRetries) (h1 : att 1 = .completes d [])
    (hd : d ≤ loadTimeout) :
    (loadPageRun factor maxRetries att).result = some [] ∧
    recordOutcome u (loadPageRun factor maxRetries att).result
      = ⟨u, false, some []⟩ ∧
    (∀ r : Option Data, (recordOutcome u r).is_successful = pyTruthy r) := by
  have hres : (loadPageRun factor maxRetries att).result = some [] := by
    refine loadPageRun_first_success factor maxRetries att 1 d []
      (le_refl 1) hm ?_ h1 hd
    intro i hi1 hi2
    omega
  refine ⟨hres, ?_, recordOutcome_is_successful u⟩
  rw [hres]
  rfl

/-- C10 witness: an extractor returning the empty dict instantly on the first
attempt, `MAX_RETRIES = 3`: outcome `is_successful = false`, `data = {}`. -/
theorem empty_extraction_recorded_failed_witness :
    (loadPageRun 1 3 (fun _ => AttemptResult.completes 0 ([] : Data))).result
      = some [] ∧
    recordOutcome "u"
      (loadPageRun 1 3 (fun _ => AttemptResult.completes 0 ([] : Data))).result
      = ⟨"u", false, some []⟩ ∧
    (∀ r : Option Data, (recordOutcome "u" r).is_successful = pyTruthy r) :=
  empty_extraction_recorded_failed 1 3 _ "u" 0 (by decide) rfl (by decide)

/-- C8: the installed request filter aborts a request exactly when its
resource type is excluded, and continues it exactly otherwise. -/
theorem request_filter_abort_iff (excludedRes : List String)
    (resourceType : String) :
    (handleRequests excludedRes resourceType = .abort
      ↔ resourceType ∈ excludedRes) ∧
    (handleRequests excludedRes resourceType = .continue_
      ↔ resourceType ∉ excludedRes) := by
  unfold handleRequests
  by_cases h : resourceType ∈ excludedRes <;> simp [h]

/-! ## Lemmas about `fetch_products` -/

/-- Once appended to `result`, an outcome survives every later round. -/
lemma fetchProductsGo_mem_mono (b : Nat → String → Option Data) :
    ∀ (rem round : Nat) (urls : List String) (result : List Outcome)
      (o : Outcome), o ∈ result → o ∈ fetchProductsGo b round rem urls result := by
  intro rem
  induction rem with
  | zero => intro round urls result o ho; exact ho
  | succ r ih =>
    intro round urls result o ho
    rw [fetchProductsGo]
    split_ifs with h1 h2 h3
    · exact ho
    · exact List.mem_append.mpr (Or.inl ho)
    · exact List.mem_append.mpr (Or.inl (List.mem_append.mpr (Or.inl ho)))
    · exact ih _ _ _ o (List.mem_append.mpr (Or.inl ho))

/-- As long as one round is still permitted, every url currently queued ends
up represented by at least one outcome in the final result. -/
lemma fetchProductsGo_covers (b : Nat → String → Option Data) :
    ∀ (rem round : Nat) (urls : List String) (result : List Outcome)
      (u : String), u ∈ urls → 1 ≤ rem →
      ∃ o ∈ fetchProductsGo b round rem urls result, o.url = u := by
  intro rem
  induction rem with
  | zero => intro _ _ _ _ _ hrem; omega
  | succ r ih =>
    intro round urls result u hu _
    have hne : urls.isEmpty = false := by
      cases urls with
      | nil => cases hu
      | cons a l => rfl
    have hmem : recordOutcome u (b round u) ∈ fetchRound b round urls :=
      List.mem_map_of_mem _ hu
    rw [fetchProductsGo]
    by_cases hb : pyTruthy (b round u) = true
    · -- u succeeds this round: its outcome is in `roundSucc` and persists
      have hsucc : recordOutcome u (b round u) ∈ roundSucc b round urls :=
        List.mem_filter.mpr
          ⟨hmem, by rw [recordOutcome_is_successful]; exact hb⟩
      split_ifs with h1 h2 h3
      · rw [h1] at hne; cases hne
      · exact ⟨recordOutcome u (b round u),
          List.mem_append.mpr (Or.inr hsucc), recordOutcome_url u _⟩
      · exact ⟨recordOutcome u (b round u),
          List.mem_append.mpr (Or.inl (List.mem_append.mpr (Or.inr hsucc))),
          recordOutcome_url u _⟩
      · exact ⟨recordOutcome u (b round u),
          fetchProductsGo_mem_mono b r _ _ _ _
            (List.mem_append.mpr (Or.inr hsucc)),
          recordOutcome_url u _⟩
    · -- u fails this round: it is requeued, or retained on the final round
      have hfailb : pyTruthy (b round u) = false := by
        cases h : pyTruthy (b round u)
        · rfl
        · exact absurd h hb
      have hfail : recordOutcome u (b round u)
          ∈ (fetchRound b round urls).filter (fun o => !o.is_successful) :=
        List.mem_filter.mpr
          ⟨hmem, by rw [recordOutcome_is_successful, hfailb]; rfl⟩
      have hreq : u ∈ roundFailUrls b round urls :=
        List.mem_map.mpr ⟨recordOutcome u (b round u), hfail,
          recordOutcome_url u _⟩
      split_ifs with h1 h2 h3
      · rw [h1] at hne; cases hne
      · rw [List.isEmpty_iff] at h2
        rw [h2] at hreq
        cases hreq
      · exact ⟨recordOutcome u (b round u),
          List.mem_append.mpr (Or.inr hmem), recordOutcome_url u _⟩
      · exact ih (round + 1) _ _ u hreq (by omega)

/-- Oracle for the C2 counterexample: address `"a"` succeeds only in the
final permitted round (round index 2), `"b"` always fails. -/
def lateSuccessOracle : Nat → String → Option Data := fun round u =>
  if u = "a" ∧ round = 2 then some [("k", "v")] else none

/-- Oracle for the spec's 3-address example: `"x"` always fails, every other
address always succeeds. -/
def oneAlwaysFailsOracle : Nat → String → Option Data := fun _ u =>
  if u = "x" then none else some [("p", "1")]

/-- C2 counterexample: two distinct addresses, `"a"` succeeding only in the
final round and `"b"` never.  The final round's `result.extend(attempt)`
re-appends the whole attempt after its successes were already appended, so
`"a"` is represented twice: Products is `["a", "a", "b"]` by address,
refuting "exactly one Outcome per input address". -/
theorem fetch_products_counterexample :
    (["a", "b"] : List String).Nodup ∧
    (fetchProducts lateSuccessOracle ["a", "b"]).map Outcome.url
      = ["a", "a", "b"] ∧
    (fetchProducts lateSuccessOracle ["a", "b"]).countP
      (fun o => o.url == "a") = 2 ∧ (2 : Nat) ≠ 1 := by
  refine ⟨by decide, by decide, by decide, by decide⟩

/-- C2 amended: every input address is represented by at least one Outcome in
the final Products (failing addresses are retained, marked unsuccessful, by
the final round's retain-all append); in the spec's example — 3 addresses of
which exactly one always fails — Products has length 3 with exactly one
Outcome marked unsuccessful.  However, when the final permitted round still
leaves failing addresses, the successful Outcomes of that final round are
duplicated (appended once as successes and once by the retain-all append), so
an address may be represented twice. -/
theorem fetch_products_coverage (b : Nat → String → Option Data)
    (urls : List String) :
    (∀ u ∈ urls, ∃ o ∈ fetchProducts b urls, o.url = u) ∧
    (fetchProducts oneAlwaysFailsOracle ["a", "b", "x"]).length = 3 ∧
    ((fetchProducts oneAlwaysFailsOracle ["a", "b", "x"]).filter
      (fun o => !o.is_successful)).length = 1 := by
  refine ⟨?_, by decide, by decide⟩
  intro u hu
  exact fetchProductsGo_covers b 3 0 urls [] u hu (by omega)

/-- C2 amended witness: a single address that always succeeds is represented
in the final Products. -/
theorem fetch_products_coverage_witness :
    ∃ o ∈ fetchProducts oneAlwaysFailsOracle ["a"], o.url = "a" :=
  (fetch_products_coverage oneAlwaysFailsOracle ["a"]).1 "a"
    (List.mem_singleton.mpr rfl)

/-! ## Lemmas about the pagination loop -/

/-- If the first `n` pages have a truthy next-page address and page `k + n`
does not, the loop starting at page `k` with enough fuel returns the
concatenation of the link batches of pages `k` through `k + n`. -/
lemma listingLoop_concat (site : Nat → ListingPage) :
    ∀ (n k fuel : Nat),
      (∀ i, k ≤ i → i < k + n → getNextPageUrl (site i) ≠ "") →
      getNextPageUrl (site (k + n)) = "" →
      n < fuel →
      listingLoop site fuel k
        = ((List.range' k (n + 1)).map (fun i => (site i).links)).flatten := by
  intro n
  induction n with
  | zero =>
    intro k fuel _ hstop hfuel
    obtain ⟨f, rfl⟩ : ∃ f, fuel = f + 1 := ⟨fuel - 1, by omega⟩
    rw [listingLoop, if_pos (by simpa using hstop)]
    have hr : List.range' k 1 = [k] := rfl
    rw [hr]
    simp
  | succ n ih =>
    intro k fuel hcont hstop hfuel
    obtain ⟨f, rfl⟩ : ∃ f, fuel = f + 1 := ⟨fuel - 1, by omega⟩
    have hk : getNextPageUrl (site k) ≠ "" := hcont k (le_refl k) (by omega)
    rw [listingLoop, if_neg hk]
    have hr : List.range' k (n + 1 + 1) = k :: List.range' (k + 1) (n + 1) := rfl
    rw [hr, List.map_cons, List.flatten_cons]
    congr 1
    refine ih (k + 1) f (fun i h1 h2 => hcont i (by omega) (by omega)) ?_
      (by omega)
    have he : k + 1 + n = k + (n + 1) := by omega
    rw [he]
    exact hstop

/-- A listing site whose first page shows a visible "Next" control carrying
an empty href. -/
def emptyHrefSite : Nat → ListingPage := fun i =>
  if i = 0 then ⟨["l1"], true, ""⟩ else ⟨["l2"], true, "/more"⟩

/-- C9 counterexample: on `emptyHrefSite`, page 0 has a visible "Next"
control, yet the crawl stops there (page 1's links are never collected),
because the control's href is empty and therefore falsy — refuting
"terminates exactly when no visible next-page control exists". -/
theorem listing_crawl_counterexample :
    (emptyHrefSite 0).nextVisible = true ∧
    listingParserRun emptyHrefSite 10 = ["l1"] ∧
    (emptyHrefSite 1).links = ["l2"] := by
  refine ⟨by decide, by decide, by decide⟩

/-- C9 amended: the pagination loop terminates exactly when the current page
has no truthy next-page address — no visible "Next" control bearing a
non-empty href (`getNextPageUrl p = ""` iff the control is invisible or its
href is empty) — and the returned sequence is the concatenation of the
per-page link batches of the visited pages, in visit order. -/
theorem listing_crawl_concat (site : Nat → ListingPage) (n fuel : Nat)
    (hcont : ∀ i, i < n → getNextPageUrl (site i) ≠ "")
    (hstop : getNextPageUrl (site n) = "")
    (hfuel : n < fuel) :
    listingParserRun site fuel
      = ((List.range' 0 (n + 1)).map (fun i => (site i).links)).flatten ∧
    (∀ p : ListingPage,
      getNextPageUrl p = "" ↔ (p.nextVisible = false ∨ p.nextHref = "")) := by
  constructor
  · unfold listingParserRun
    exact listingLoop_concat site n 0 fuel
      (fun i h1 h2 => hcont i (by omega)) (by simpa using hstop) hfuel
  · intro p
    unfold getNextPageUrl
    cases hv : p.nextVisible <;> simp

/-- C9 amended witness: two pages, the first with a truthy "Next" href, the
second with an invisible control: the crawl returns page 1's links followed
by page 2's links. -/
theorem listing_crawl_concat_witness :
    listingParserRun (fun i =>
        if i = 0 then ⟨["p1", "p2"], true, "/page2"⟩
        else ⟨["q1"], false, ""⟩) 10
      = ((List.range' 0 2).map (fun i =>
          ((fun i => if i = 0 then (⟨["p1", "p2"], true, "/page2"⟩ : ListingPage)
            else ⟨["q1"], false, ""⟩) i).links)).flatten ∧
    (∀ p : ListingPage,
      getNextPageUrl p = "" ↔ (p.nextVisible = false ∨ p.nextHref = "")) := by
  refine listing_crawl_concat _ 1 10 ?_ (by decide) (by decide)
  intro i hi
  have : i = 0 := by omega
  subst this
  decide

/-! ## Lemmas about the session machine -/

/-- All addresses present in a session state, with multiplicity: not yet
enqueued, queued, in flight, and already recorded. -/
def urlsOf (s : SessionState) : List String :=
  s.pending.map Job.url ++ s.queue.map Job.url ++ s.inflight.map Job.url
    ++ s.results.map Outcome.url

/-- The enqueued jobs carry exactly the submitted urls, in order. -/
lemma sessionJobs_map_url (urls : List String) :
    (sessionJobs urls).map Job.url = urls := by
  unfold sessionJobs
  rw [List.map_map]
  have hc : (Job.url ∘ fun p : Nat × String => Job.mk (p.1 + 1) urls.length p.2)
      = Prod.snd := by
    funext p
    rfl
  rw [hc, List.enum_map_snd]

/-- Each scheduler step preserves the multiset of addresses in the state. -/
lemma sessionStep_perm {oracle : String → Option Data} {cap numW : Nat}
    {s s' : SessionState} (h : SessionStep oracle cap numW s s') :
    (urlsOf s).Perm (urlsOf s') := by
  cases h with
  | enqueue j rest q w res hq =>
    rw [List.perm_iff_count]
    intro a
    simp only [urlsOf, List.map_cons, List.map_append, List.count_append,
      List.count_cons, List.count_nil, List.map_nil]
    split_ifs <;> omega
  | dequeue p j rest w res hw =>
    rw [List.perm_iff_count]
    intro a
    simp only [urlsOf, List.map_cons, List.map_append, List.count_append,
      List.count_cons, List.count_nil, List.map_nil]
    split_ifs <;> omega
  | finish p q w1 w2 j res =>
    rw [List.perm_iff_count]
    intro a
    simp only [urlsOf, List.map_cons, List.map_append, List.count_append,
      List.count_cons, List.count_nil, List.map_nil, recordOutcome_url]
    split_ifs <;> omega

/-- Reachability preserves the multiset of addresses. -/
lemma sessionReach_perm {oracle : String → Option Data} {cap numW : Nat}
    {s s' : SessionState}
    (h : Relation.ReflTransGen (SessionStep oracle cap numW) s s') :
    (urlsOf s).Perm (urlsOf s') := by
  induction h with
  | refl => exact List.Perm.refl _
  | tail _ hstep ih => exact ih.trans (sessionStep_perm hstep)

/-- C1: for a completed session — every enqueued job dequeued and processed
to completion, no worker still holding a job — the recorded outcomes' urls
are a permutation of the submitted urls: exactly one outcome per submitted
address, no duplicates, no omissions, in arbitrary order. -/
theorem session_outcomes_complete (oracle : String → Option Data)
    (workerLimit : Nat) (urls : List String) (s : SessionState)
    (hreach : Relation.ReflTransGen (sessionStep oracle workerLimit urls)
      (sessionInit urls) s)
    (hdone : s.Completed) :
    (s.results.map Outcome.url).Perm urls := by
  have hperm : (urlsOf (sessionInit urls)).Perm (urlsOf s) :=
    sessionReach_perm hreach
  obtain ⟨h1, h2, h3⟩ := hdone
  have hend : urlsOf s = s.results.map Outcome.url := by
    simp [urlsOf, h1, h2, h3]
  have hinit : urlsOf (sessionInit urls) = urls := by
    simp [urlsOf, sessionInit, sessionJobs_map_url]
  rw [hend, hinit] at hperm
  exact hperm.symm

/-- C1 witness: a one-address session with `WORKER_LIMIT = 1`, driven through
the trace enqueue → dequeue → finish to completion: the single recorded
outcome carries the submitted address. -/
theorem session_outcomes_complete_witness :
    ((SessionState.mk [] [] []
        [recordOutcome "a" (some [("k", "v")])]).results.map Outcome.url).Perm
      ["a"] := by
  refine session_outcomes_complete (fun _ => some [("k", "v")]) 1 ["a"] _ ?_
    ⟨rfl, rfl, rfl⟩
  exact Relation.ReflTransGen.head
    (SessionStep.enqueue ⟨1, 1, "a"⟩ [] [] [] [] (by decide))
    (Relation.ReflTransGen.head
      (SessionStep.dequeue [] ⟨1, 1, "a"⟩ [] [] [] (by decide))
      (Relation.ReflTransGen.head
        (SessionStep.finish [] [] [] [] ⟨1, 1, "a"⟩ [])
        Relation.ReflTransGen.refl))

end Scraper
